import Mathlib

/-!
Verification of the Memory-Tools Node client wire-protocol engine.

The development shallowly embeds the TypeScript client
(`MemoryToolsClient` in the repository source): byte buffers become
`List Nat` (each entry a byte value), `Buffer.readUInt32LE` /
`writeUInt32LE` become `readU32LE` / `toU32LE`, the mutable client
object becomes the explicit record `ConnState`, and side effects on the
socket (writes, continuation invocations) are recorded in ghost fields
(`written`, `delivered`) of that record.  Strings travelling on the
wire (usernames, passwords, server messages) are modelled by their
UTF-8 byte sequences, since the client manipulates them only through
their encoded bytes.
-/

namespace MemoryToolsClient

/-- Protocol constant from the source: the authentication opcode. -/
def CMD_AUTHENTICATE : Nat := 18

/-- Server response status: OK. -/
def STATUS_OK : Nat := 1

/-- Server response status: NOT_FOUND. -/
def STATUS_NOT_FOUND : Nat := 2

/-- Server response status: ERROR. -/
def STATUS_ERROR : Nat := 3

/-- Server response status: BAD_COMMAND. -/
def STATUS_BAD_COMMAND : Nat := 4

/-- Server response status: UNAUTHORIZED. -/
def STATUS_UNAUTHORIZED : Nat := 5

/-- Server response status: BAD_REQUEST. -/
def STATUS_BAD_REQUEST : Nat := 6

/-- Embedding of `getStatusString`: numeric status code to string, with
an UNKNOWN_STATUS fallback for unrecognized codes. -/
def getStatusString (status : Nat) : String :=
  if status = STATUS_OK then "OK"
  else if status = STATUS_NOT_FOUND then "NOT_FOUND"
  else if status = STATUS_ERROR then "ERROR"
  else if status = STATUS_BAD_COMMAND then "BAD_COMMAND"
  else if status = STATUS_UNAUTHORIZED then "UNAUTHORIZED"
  else if status = STATUS_BAD_REQUEST then "BAD_REQUEST"
  else "UNKNOWN_STATUS"

/-- Embedding of the `CommandResponse` interface: one decoded response
frame.  `message` holds the UTF-8 bytes of the server message (the
source applies `buffer.toString` with the utf8 codec to exactly these
bytes); `data` holds the raw payload bytes. -/
structure CommandResponse where
  status : Nat
  message : List Nat
  data : List Nat
deriving Repr, DecidableEq

/-- Little-endian u32 read at an offset, as `Buffer.readUInt32LE` does;
out-of-range indices read as 0 (the source never hits that case because
every read is length-guarded first). -/
def readU32LE (bs : List Nat) (off : Nat) : Nat :=
  bs.getD off 0 + 256 * bs.getD (off + 1) 0 +
    65536 * bs.getD (off + 2) 0 + 16777216 * bs.getD (off + 3) 0

/-- Little-endian u32 serialization, as `Buffer.writeUInt32LE` does. -/
def toU32LE (n : Nat) : List Nat :=
  [n % 256, n / 256 % 256, n / 65536 % 256, n / 16777216 % 256]

/-- Embedding of `writeString`: u32 LE length prefix followed by the
UTF-8 bytes of the string (strings are modelled as their UTF-8 bytes). -/
def writeString (s : List Nat) : List Nat :=
  toU32LE s.length ++ s

/-- Embedding of `writeBytes`: u32 LE length prefix followed by the raw
bytes. -/
def writeBytes (b : List Nat) : List Nat :=
  toU32LE b.length ++ b

/-- The observable part of a `tls.TLSSocket` handle that the client
inspects: its `destroyed` flag. -/
structure TLSSocket where
  destroyed : Bool
deriving Repr, DecidableEq

/-- Explicit-state embedding of the mutable `MemoryToolsClient` object.
The first six fields are the source's instance fields.  `delivered` is
ghost state recording each invocation of a stored `responseWaiter`
continuation as a pair (waiter id, response); `written` is ghost state
recording each `socket.write` call. -/
structure ConnState where
  socket : Option TLSSocket
  connectingPromise : Bool
  isAuthenticatedSession : Bool
  authenticatedUser : Option (List Nat)
  responseBuffer : List Nat
  responseWaiter : Option Nat
  delivered : List (Nat × CommandResponse)
  written : List (List Nat)
deriving Repr, DecidableEq

/-- One pass of the body of the `while` loop in `tryProcessResponse`:
the three length checks (header, message + data-length field, full
packet), then extraction of status byte, message bytes `[5, 5+msgLen)`,
data bytes `[9+msgLen, 9+msgLen+dataLen)` and the trimmed remainder of
the buffer. -/
def tryExtractFrame (buf : List Nat) : Option (CommandResponse × List Nat) :=
  if buf.length < 5 then none
  else
    let msgLen := readU32LE buf 1
    if buf.length < 5 + msgLen + 4 then none
    else
      let dataLen := readU32LE buf (5 + msgLen)
      if buf.length < 5 + msgLen + 4 + dataLen then none
      else
        some ({ status := buf.getD 0 0,
                message := (buf.drop 5).take msgLen,
                data := (buf.drop (9 + msgLen)).take dataLen },
              buf.drop (9 + msgLen + dataLen))

/-- Embedding of the `while (true)` loop of `tryProcessResponse`.  On
each iteration: return if no waiter is registered; return if the buffer
does not yet hold a complete frame; otherwise trim the frame, clear the
waiter slot, and invoke the stored continuation (recorded in the
`delivered` list).  Invoking a promise `resolve` continuation does not
synchronously register a new waiter, so the recursive call observes an
empty slot. -/
def processLoop (buf : List Nat) (waiter : Option Nat)
    (delivered : List (Nat × CommandResponse)) :
    List Nat × Option Nat × List (Nat × CommandResponse) :=
  match waiter with
  | none => (buf, none, delivered)
  | some w =>
    match h : tryExtractFrame buf with
    | none => (buf, some w, delivered)
    | some (r, rest) => processLoop rest none (delivered ++ [(w, r)])
termination_by buf.length
decreasing_by
  unfold tryExtractFrame at h
  simp only [] at h
  split at h
  · exact absurd h (by simp)
  · split at h
    · exact absurd h (by simp)
    · split at h
      · exact absurd h (by simp)
      · simp only [Option.some.injEq, Prod.mk.injEq] at h
        obtain ⟨-, hrest⟩ := h
        subst hrest
        simp only [List.length_drop]
        omega

/-- Embedding of `tryProcessResponse` at the state level. -/
def tryProcessResponse (st : ConnState) : ConnState :=
  let out := processLoop st.responseBuffer st.responseWaiter st.delivered
  { st with responseBuffer := out.1, responseWaiter := out.2.1,
            delivered := out.2.2 }

/-- Embedding of the socket `data` listener installed by
`setupSocketListeners`: append the chunk to the receive buffer, then
run the incremental decoder. -/
def onData (st : ConnState) (chunk : List Nat) : ConnState :=
  tryProcessResponse { st with responseBuffer := st.responseBuffer ++ chunk }

/-- Embedding of `waitForResponse`: register the caller's continuation
as the response waiter, then immediately re-run the incremental decoder
against the bytes already buffered. -/
def waitForResponse (st : ConnState) (w : Nat) : ConnState :=
  tryProcessResponse { st with responseWaiter := some w }

/-- Deliver a sequence of transport chunks one at a time, running the
decoder after each append, exactly as the `data` listener does. -/
def feedChunks (st : ConnState) (chunks : List (List Nat)) : ConnState :=
  chunks.foldl onData st

/-- Modelled from the spec: the server-side response encoder is not
part of this client repository (only the decoder is).  The spec gives
the response wire format
status:u8, msgLen:u32 LE, message bytes, dataLen:u32 LE, data bytes,
realized here with the client's own length-prefix primitive
`writeBytes`; the status byte is truncated to u8 as `Buffer.from`
would. -/
def encodeResponse (status : Nat) (message data : List Nat) : List Nat :=
  (status % 256) :: (writeBytes message ++ writeBytes data)

/-- A connected, authenticated client state with an empty receive
buffer and one registered response waiter: the state in which a caller
of `sendCommand` sits while awaiting the server's reply. -/
def listeningState (w : Nat) : ConnState :=
  { socket := some { destroyed := false }, connectingPromise := false,
    isAuthenticatedSession := true, authenticatedUser := none,
    responseBuffer := [], responseWaiter := some w,
    delivered := [], written := [] }

/-- Outcome of a `connect()` call, distinguishing the three branches of
the source: return the existing open socket, return the in-flight
connecting promise, or start a fresh TLS connection attempt. -/
inductive ConnectOutcome where
  | reusedSocket
  | joinedInflight
  | startedHandshake
deriving Repr, DecidableEq

/-- Embedding of the synchronous head of `connect()`: if a socket
exists and is not destroyed, return it; else if a connecting promise is
in flight, return it; otherwise install a fresh connecting promise and
begin a TLS handshake. -/
def connect (st : ConnState) : ConnectOutcome × ConnState :=
  match st.socket with
  | some s =>
    if s.destroyed = false then (ConnectOutcome.reusedSocket, st)
    else if st.connectingPromise then (ConnectOutcome.joinedInflight, st)
    else (ConnectOutcome.startedHandshake, { st with connectingPromise := true })
  | none =>
    if st.connectingPromise then (ConnectOutcome.joinedInflight, st)
    else (ConnectOutcome.startedHandshake, { st with connectingPromise := true })

/-- Embedding of `cleanup`: optionally reject the in-flight connect
promise (when one exists and both a reject continuation and an error
were supplied), destroy and drop the socket, clear the connecting
promise, clear the authentication flags, and clear the receive buffer.
The second component reports the error the connect promise was rejected
with, if any.  Note the source leaves `responseWaiter` (and hence the
ghost `delivered` log) untouched. -/
def cleanup (st : ConnState) (reject : Bool) (err : Option String) :
    ConnState × Option String :=
  let connectRejection :=
    if st.connectingPromise ∧ reject ∧ err.isSome then err else none
  ({ st with socket := none, connectingPromise := false,
             isAuthenticatedSession := false, authenticatedUser := none,
             responseBuffer := [] }, connectRejection)

/-- Embedding of `performAuthentication`, with the awaited response
frame passed explicitly (it is the frame `waitForResponse` hands the
registered waiter).  Writes the authentication opcode followed by the
two length-prefixed credential strings; on status OK marks the session
authenticated and records the username; on any other status runs
`cleanup` and raises an error carrying the status string and the server
message. -/
def performAuthentication (st : ConnState) (username password : List Nat)
    (resp : CommandResponse) :
    Except (String × List Nat) (List Nat) × ConnState :=
  let st1 := { st with written :=
    st.written ++ [CMD_AUTHENTICATE :: (writeString username ++ writeString password)] }
  if resp.status = STATUS_OK then
    (Except.ok resp.message,
     { st1 with isAuthenticatedSession := true,
                authenticatedUser := some username })
  else
    (Except.error (getStatusString resp.status, resp.message),
     (cleanup st1 false none).1)

/-- Outcome of the synchronous checks and write in `sendCommand`. -/
inductive SendOutcome where
  | errNotConnected
  | errNotAuthenticated
  | wroteAndWaiting
deriving Repr, DecidableEq

/-- Embedding of `sendCommand` from the point where the awaited
`connect()` has resolved (for an already-connected client that await
performs no I/O): fail if the socket handle is gone; fail with the
not-authenticated error when the opcode is not the authentication
opcode and the session is unauthenticated, before any write; otherwise
write opcode plus payload and register the caller as response waiter. -/
def sendCommand (st : ConnState) (commandType : Nat) (payload : List Nat)
    (w : Nat) : SendOutcome × ConnState :=
  match st.socket with
  | none => (SendOutcome.errNotConnected, st)
  | some _ =>
    if commandType ≠ CMD_AUTHENTICATE ∧ ¬ st.isAuthenticatedSession then
      (SendOutcome.errNotAuthenticated, st)
    else
      let st1 := { st with written :=
        st.written ++ [(commandType % 256) :: payload] }
      (SendOutcome.wroteAndWaiting, waitForResponse st1 w)

/-- Embedding of the `GetResult` interface; the source stores
`JSON.parse` of the raw data bytes in `value`, modelled here by the raw
bytes themselves (JSON decoding is outside the wire-protocol engine). -/
structure GetResult where
  found : Bool
  message : List Nat
  value : Option (List Nat)
deriving Repr, DecidableEq

/-- Embedding of the response handling of `collectionItemGet`: a
NOT_FOUND status is returned as a successful absent result; any other
non-OK status raises an error carrying the status string and the server
message; on OK the value is returned with found set. -/
def collectionItemGetResult (resp : CommandResponse) :
    Except (String × List Nat) GetResult :=
  if resp.status = STATUS_NOT_FOUND then
    Except.ok { found := false, message := resp.message, value := none }
  else if resp.status ≠ STATUS_OK then
    Except.error (getStatusString resp.status, resp.message)
  else
    Except.ok { found := true, message := resp.message, value := some resp.data }

example : tryExtractFrame [1, 1, 0, 0, 0, 65, 1, 0, 0, 0, 66] =
    some ({ status := 1, message := [65], data := [66] }, []) := by decide

example : tryExtractFrame [1, 1, 0, 0] = none := by decide

example : encodeResponse 1 [65] [66] = [1, 1, 0, 0, 0, 65, 1, 0, 0, 0, 66] := by
  decide

theorem readU32LE_cons (x : Nat) (l : List Nat) (n : Nat) :
    readU32LE (x :: l) (n + 1) = readU32LE l n := rfl

theorem readU32LE_append (l r : List Nat) (k : Nat) :
    readU32LE (l ++ r) (l.length + k) = readU32LE r k := by
  induction l with
  | nil => simp
  | cons x l ih =>
    simp only [List.cons_append, List.length_cons]
    have h : l.length + 1 + k = l.length + k + 1 := by omega
    rw [h, readU32LE_cons, ih]

theorem readU32LE_toU32LE (n : Nat) (r : List Nat) (h : n < 4294967296) :
    readU32LE (toU32LE n ++ r) 0 = n := by
  have e : toU32LE n ++ r =
      n % 256 :: (n / 256 % 256 :: (n / 65536 % 256 :: (n / 16777216 % 256 :: r))) := rfl
  rw [e]
  show n % 256 + 256 * (n / 256 % 256) + 65536 * (n / 65536 % 256) +
      16777216 * (n / 16777216 % 256) = n
  omega

theorem readU32LE_prefix_eq (p q : List Nat) (off : Nat) (h : off + 4 ≤ p.length) :
    readU32LE p off = readU32LE (p ++ q) off := by
  simp only [readU32LE]
  rw [List.getD_append _ _ _ _ (by omega), List.getD_append _ _ _ _ (by omega),
      List.getD_append _ _ _ _ (by omega), List.getD_append _ _ _ _ (by omega)]

theorem encodeResponse_length (s : Nat) (m d : List Nat) :
    (encodeResponse s m d).length = 9 + m.length + d.length := by
  simp [encodeResponse, writeBytes, toU32LE]
  omega

theorem readU32LE_encode_msgLen (s : Nat) (m d rest : List Nat)
    (hm : m.length < 4294967296) :
    readU32LE (encodeResponse s m d ++ rest) 1 = m.length := by
  have e : encodeResponse s m d ++ rest =
      (s % 256) :: (toU32LE m.length ++ (m ++ (toU32LE d.length ++ (d ++ rest)))) := by
    simp [encodeResponse, writeBytes, List.append_assoc]
  rw [e]
  calc readU32LE ((s % 256) ::
        (toU32LE m.length ++ (m ++ (toU32LE d.length ++ (d ++ rest))))) 1
      = readU32LE (toU32LE m.length ++ (m ++ (toU32LE d.length ++ (d ++ rest)))) 0 := rfl
    _ = m.length := readU32LE_toU32LE _ _ hm

theorem readU32LE_encode_dataLen (s : Nat) (m d rest : List Nat)
    (hd : d.length < 4294967296) :
    readU32LE (encodeResponse s m d ++ rest) (5 + m.length) = d.length := by
  have e : encodeResponse s m d ++ rest =
      ((s % 256) :: (toU32LE m.length ++ m)) ++ (toU32LE d.length ++ (d ++ rest)) := by
    simp [encodeResponse, writeBytes, List.append_assoc]
  have hl : ((s % 256) :: (toU32LE m.length ++ m)).length = 5 + m.length := by
    simp [toU32LE]
    omega
  rw [e, show 5 + m.length = ((s % 256) :: (toU32LE m.length ++ m)).length + 0 by
        rw [hl]; omega,
      readU32LE_append, readU32LE_toU32LE _ _ hd]

theorem tryExtractFrame_encode_append (s : Nat) (m d rest : List Nat)
    (hm : m.length < 4294967296) (hd : d.length < 4294967296) :
    tryExtractFrame (encodeResponse s m d ++ rest) =
      some ({ status := s % 256, message := m, data := d }, rest) := by
  have hlen : (encodeResponse s m d ++ rest).length =
      9 + m.length + d.length + rest.length := by
    simp [encodeResponse_length]
  have hstat : (encodeResponse s m d ++ rest).getD 0 0 = s % 256 := rfl
  have hmsg : ((encodeResponse s m d ++ rest).drop 5).take m.length = m := by
    rw [show encodeResponse s m d ++ rest =
          ((s % 256) :: toU32LE m.length) ++ (m ++ (toU32LE d.length ++ (d ++ rest))) by
        simp [encodeResponse, writeBytes, List.append_assoc],
      List.drop_left' (by simp [toU32LE]), List.take_left' rfl]
  have hdata : ((encodeResponse s m d ++ rest).drop (9 + m.length)).take d.length = d := by
    rw [show encodeResponse s m d ++ rest =
          ((s % 256) :: (toU32LE m.length ++ (m ++ toU32LE d.length))) ++ (d ++ rest) by
        simp [encodeResponse, writeBytes, List.append_assoc],
      List.drop_left' (by simp [toU32LE]; omega), List.take_left' rfl]
  have hrest : (encodeResponse s m d ++ rest).drop (9 + m.length + d.length) = rest :=
    List.drop_left' (encodeResponse_length s m d)
  simp only [tryExtractFrame, readU32LE_encode_msgLen s m d rest hm,
    readU32LE_encode_dataLen s m d rest hd, hlen]
  rw [if_neg (by omega), if_neg (by omega), if_neg (by omega),
    hstat, hmsg, hdata, hrest]

theorem tryExtractFrame_encode (s : Nat) (m d : List Nat)
    (hm : m.length < 4294967296) (hd : d.length < 4294967296) :
    tryExtractFrame (encodeResponse s m d) =
      some ({ status := s % 256, message := m, data := d }, []) := by
  have h := tryExtractFrame_encode_append s m d [] hm hd
  rwa [List.append_nil] at h

theorem tryExtractFrame_incomplete (s : Nat) (m d p q : List Nat)
    (hm : m.length < 4294967296) (hd : d.length < 4294967296)
    (hpq : p ++ q = encodeResponse s m d)
    (hlt : p.length < (encodeResponse s m d).length) :
    tryExtractFrame p = none := by
  rcases Nat.lt_or_ge p.length 5 with h5 | h5
  · unfold tryExtractFrame
    rw [if_pos h5]
  · have hml : readU32LE p 1 = m.length := by
      rw [readU32LE_prefix_eq p q 1 (by omega), hpq,
        show encodeResponse s m d = encodeResponse s m d ++ [] by rw [List.append_nil],
        readU32LE_encode_msgLen s m d [] hm]
    rcases Nat.lt_or_ge p.length (5 + m.length + 4) with h9 | h9
    · simp only [tryExtractFrame, hml]
      rw [if_neg (by omega), if_pos h9]
    · have hdl : readU32LE p (5 + m.length) = d.length := by
        rw [readU32LE_prefix_eq p q (5 + m.length) (by omega), hpq,
          show encodeResponse s m d = encodeResponse s m d ++ [] by rw [List.append_nil],
          readU32LE_encode_dataLen s m d [] hd]
      have htot : p.length < 5 + m.length + 4 + d.length := by
        have := encodeResponse_length s m d
        omega
      simp only [tryExtractFrame, hml, hdl]
      rw [if_neg (by omega), if_neg (by omega), if_pos htot]

theorem processLoop_no_waiter (buf : List Nat)
    (d : List (Nat × CommandResponse)) :
    processLoop buf none d = (buf, none, d) := by
  simp [processLoop]

theorem processLoop_extract_none (buf : List Nat) (w : Nat)
    (d : List (Nat × CommandResponse)) (h : tryExtractFrame buf = none) :
    processLoop buf (some w) d = (buf, some w, d) := by
  rw [processLoop, h]

theorem processLoop_extract_some (buf : List Nat) (w : Nat)
    (d : List (Nat × CommandResponse)) (r : CommandResponse) (rest : List Nat)
    (h : tryExtractFrame buf = some (r, rest)) :
    processLoop buf (some w) d = (rest, none, d ++ [(w, r)]) := by
  rw [processLoop, h]
  exact processLoop_no_waiter rest (d ++ [(w, r)])

theorem tryProcessResponse_no_waiter (st : ConnState)
    (h : st.responseWaiter = none) : tryProcessResponse st = st := by
  obtain ⟨sock, cp, auth, user, buf, wtr, del, wr⟩ := st
  simp only at h
  subst h
  simp [tryProcessResponse, processLoop_no_waiter]

theorem tryProcessResponse_incomplete (st : ConnState) (w : Nat)
    (hw : st.responseWaiter = some w)
    (h : tryExtractFrame st.responseBuffer = none) :
    tryProcessResponse st = st := by
  obtain ⟨sock, cp, auth, user, buf, wtr, del, wr⟩ := st
  simp only at hw h
  subst hw
  simp [tryProcessResponse, processLoop_extract_none _ _ _ h]

theorem tryProcessResponse_complete (st : ConnState) (w : Nat)
    (r : CommandResponse) (rest : List Nat)
    (hw : st.responseWaiter = some w)
    (h : tryExtractFrame st.responseBuffer = some (r, rest)) :
    tryProcessResponse st =
      { st with responseBuffer := rest, responseWaiter := none,
                delivered := st.delivered ++ [(w, r)] } := by
  obtain ⟨sock, cp, auth, user, buf, wtr, del, wr⟩ := st
  simp only at hw h
  subst hw
  simp [tryProcessResponse, processLoop_extract_some _ w _ _ _ h]

theorem feedChunks_no_waiter_empty (st : ConnState) (chunks : List (List Nat))
    (hw : st.responseWaiter = none) (h : chunks.flatten = []) :
    feedChunks st chunks = st := by
  induction chunks with
  | nil => rfl
  | cons c rest ih =>
    rw [List.flatten_cons, List.append_eq_nil] at h
    obtain ⟨hc, hrest⟩ := h
    subst hc
    have h1 : onData st [] = st := by
      have e : { st with responseBuffer := st.responseBuffer ++ [] } = st := by
        rw [List.append_nil]
      rw [onData, e]
      exact tryProcessResponse_no_waiter st hw
    show feedChunks (onData st []) rest = st
    rw [h1]
    exact ih hrest

theorem feedChunks_prefix_incomplete (s : Nat) (m d : List Nat) (w : Nat)
    (hm : m.length < 4294967296) (hd : d.length < 4294967296) :
    ∀ (chunks : List (List Nat)) (p q : List Nat),
      (p ++ chunks.flatten) ++ q = encodeResponse s m d →
      q ≠ [] →
      feedChunks { listeningState w with responseBuffer := p } chunks =
        { listeningState w with responseBuffer := p ++ chunks.flatten } := by
  intro chunks
  induction chunks with
  | nil =>
    intro p q h hq
    simp [feedChunks]
  | cons c rest ih =>
    intro p q h hq
    have hassoc : ((p ++ c) ++ rest.flatten) ++ q = encodeResponse s m d := by
      rw [← h, List.flatten_cons]
      simp [List.append_assoc]
    have hlt : (p ++ c).length < (encodeResponse s m d).length := by
      have hl := congrArg List.length hassoc
      simp only [List.length_append] at hl
      have hq1 : 0 < q.length := List.length_pos.mpr hq
      rw [List.length_append]
      omega
    have hext : tryExtractFrame (p ++ c) = none :=
      tryExtractFrame_incomplete s m d (p ++ c) (rest.flatten ++ q) hm hd
        (by rw [← hassoc]; simp [List.append_assoc]) hlt
    have h1 : onData { listeningState w with responseBuffer := p } c =
        { listeningState w with responseBuffer := p ++ c } :=
      tryProcessResponse_incomplete _ w rfl hext
    show feedChunks (onData { listeningState w with responseBuffer := p } c) rest = _
    rw [h1, ih (p ++ c) q hassoc hq]
    rw [List.flatten_cons, List.append_assoc]

theorem feedChunks_completes (s : Nat) (m d : List Nat) (w : Nat)
    (hm : m.length < 4294967296) (hd : d.length < 4294967296) :
    ∀ (chunks : List (List Nat)) (p : List Nat),
      p.length < (encodeResponse s m d).length →
      p ++ chunks.flatten = encodeResponse s m d →
      feedChunks { listeningState w with responseBuffer := p } chunks =
        { listeningState w with
            responseWaiter := none,
            delivered := [(w, { status := s % 256, message := m, data := d })] } := by
  intro chunks
  induction chunks with
  | nil =>
    intro p hlt h
    rw [List.flatten_nil, List.append_nil] at h
    rw [h] at hlt
    omega
  | cons c rest ih =>
    intro p hlt h
    rw [List.flatten_cons, ← List.append_assoc] at h
    rcases Nat.lt_or_ge (p ++ c).length (encodeResponse s m d).length with hlt2 | hge
    · have hext : tryExtractFrame (p ++ c) = none :=
        tryExtractFrame_incomplete s m d (p ++ c) rest.flatten hm hd h hlt2
      have h1 : onData { listeningState w with responseBuffer := p } c =
          { listeningState w with responseBuffer := p ++ c } :=
        tryProcessResponse_incomplete _ w rfl hext
      show feedChunks (onData { listeningState w with responseBuffer := p } c) rest = _
      rw [h1]
      exact ih (p ++ c) hlt2 h
    · have hl := congrArg List.length h
      simp only [List.length_append] at hl
      simp only [List.length_append] at hge
      have hnil : rest.flatten = [] := by
        have h0 : rest.flatten.length = 0 := by omega
        exact List.length_eq_zero.mp h0
      have hpc : p ++ c = encodeResponse s m d := by
        rw [hnil, List.append_nil] at h
        exact h
      have hext : tryExtractFrame (p ++ c) =
          some ({ status := s % 256, message := m, data := d }, []) := by
        rw [hpc]
        exact tryExtractFrame_encode s m d hm hd
      have h1 : onData { listeningState w with responseBuffer := p } c =
          { listeningState w with
              responseBuffer := [],
              responseWaiter := none,
              delivered := [(w, { status := s % 256, message := m, data := d })] } := by
        have h2 := tryProcessResponse_complete
          { listeningState w with responseBuffer := p ++ c } w
          { status := s % 256, message := m, data := d } [] rfl hext
        exact h2
      show feedChunks (onData { listeningState w with responseBuffer := p } c) rest = _
      rw [h1]
      exact feedChunks_no_waiter_empty _ rest rfl hnil

/-- C1: the incremental frame decoder follows the three-stage check: with
fewer than 5 buffered bytes, or fewer than 5 + msgLen + 4 (msgLen the u32 LE
at offset 1), or fewer than 5 + msgLen + 4 + dataLen (dataLen the u32 LE at
offset 5 + msgLen), it reports incomplete and leaves the state (in
particular the buffer) unchanged; once all three checks pass it extracts
status from byte 0, message from bytes in the interval from 5 to 5+msgLen,
data from the interval from 9+msgLen to 9+msgLen+dataLen, and trims exactly
9 + msgLen + dataLen bytes from the front of the buffer. -/
theorem tryProcess_three_stage_decode (st : ConnState) (w : Nat)
    (hw : st.responseWaiter = some w) :
    (st.responseBuffer.length < 5 → tryProcessResponse st = st) ∧
    (st.responseBuffer.length < 5 + readU32LE st.responseBuffer 1 + 4 →
      tryProcessResponse st = st) ∧
    (st.responseBuffer.length <
        5 + readU32LE st.responseBuffer 1 + 4 +
          readU32LE st.responseBuffer (5 + readU32LE st.responseBuffer 1) →
      tryProcessResponse st = st) ∧
    (∀ msgLen dataLen, msgLen = readU32LE st.responseBuffer 1 →
      dataLen = readU32LE st.responseBuffer (5 + msgLen) →
      9 + msgLen + dataLen ≤ st.responseBuffer.length →
      tryProcessResponse st =
        { st with
            responseBuffer := st.responseBuffer.drop (9 + msgLen + dataLen),
            responseWaiter := none,
            delivered := st.delivered ++
              [(w, { status := st.responseBuffer.getD 0 0,
                     message := (st.responseBuffer.take (5 + msgLen)).drop 5,
                     data := (st.responseBuffer.take
                        (9 + msgLen + dataLen)).drop (9 + msgLen) })] }) := by
  refine ⟨?_, ?_, ?_, ?_⟩
  · intro h
    apply tryProcessResponse_incomplete st w hw
    unfold tryExtractFrame
    rw [if_pos h]
  · intro h
    apply tryProcessResponse_incomplete st w hw
    rcases Nat.lt_or_ge st.responseBuffer.length 5 with h5 | h5
    · unfold tryExtractFrame
      rw [if_pos h5]
    · simp only [tryExtractFrame]
      rw [if_neg (Nat.not_lt.mpr h5), if_pos h]
  · intro h
    apply tryProcessResponse_incomplete st w hw
    rcases Nat.lt_or_ge st.responseBuffer.length 5 with h5 | h5
    · unfold tryExtractFrame
      rw [if_pos h5]
    · rcases Nat.lt_or_ge st.responseBuffer.length
          (5 + readU32LE st.responseBuffer 1 + 4) with h9 | h9
      · simp only [tryExtractFrame]
        rw [if_neg (Nat.not_lt.mpr h5), if_pos h9]
      · simp only [tryExtractFrame]
        rw [if_neg (Nat.not_lt.mpr h5), if_neg (Nat.not_lt.mpr h9), if_pos h]
  · intro msgLen dataLen hml hdl hle
    subst hml
    subst hdl
    have hext : tryExtractFrame st.responseBuffer =
        some ({ status := st.responseBuffer.getD 0 0,
                message := (st.responseBuffer.drop 5).take
                  (readU32LE st.responseBuffer 1),
                data := (st.responseBuffer.drop
                    (9 + readU32LE st.responseBuffer 1)).take
                  (readU32LE st.responseBuffer
                    (5 + readU32LE st.responseBuffer 1)) },
              st.responseBuffer.drop
                (9 + readU32LE st.responseBuffer 1 +
                  readU32LE st.responseBuffer
                    (5 + readU32LE st.responseBuffer 1))) := by
      simp only [tryExtractFrame]
      rw [if_neg (by omega), if_neg (by omega), if_neg (by omega)]
    rw [tryProcessResponse_complete st w _ _ hw hext, List.take_drop,
      List.take_drop]

/-- Witness for C1 at concrete inputs: a 3-byte buffer is left untouched,
and an 11-byte buffer holding one complete frame plus one extra byte is
decoded and trimmed exactly as stated. -/
theorem tryProcess_three_stage_decode_witness :
    tryProcessResponse { listeningState 0 with responseBuffer := [1, 2, 0] } =
      { listeningState 0 with responseBuffer := [1, 2, 0] } ∧
    tryProcessResponse { listeningState 3 with
        responseBuffer := [1, 1, 0, 0, 0, 65, 1, 0, 0, 0, 66, 9] } =
      { listeningState 3 with
          responseBuffer := [9],
          responseWaiter := none,
          delivered := [(3, { status := 1, message := [65], data := [66] })] } := by
  constructor
  · exact (tryProcess_three_stage_decode _ 0 rfl).1 (by decide)
  · rw [(tryProcess_three_stage_decode _ 3 rfl).2.2.2 1 1 (by decide) (by decide)
      (by decide)]
    decide

/-- C2: encoding a (status, message, data) triple in the response wire
format status:u8, msgLen:u32 LE, message bytes, dataLen:u32 LE, data bytes
and then running the incremental decoder on the resulting buffer yields
exactly the original triple back, consuming the whole buffer. -/
theorem encode_decode_roundtrip (status : Nat) (message data : List Nat)
    (hs : status < 256) (hm : message.length < 4294967296)
    (hd : data.length < 4294967296) :
    tryExtractFrame (encodeResponse status message data) =
      some ({ status := status, message := message, data := data }, []) := by
  rw [tryExtractFrame_encode status message data hm hd, Nat.mod_eq_of_lt hs]

/-- Witness for C2 at concrete triples with data of lengths 0, 1 and
65536. -/
theorem encode_decode_roundtrip_witness :
    tryExtractFrame (encodeResponse 2 [104, 105] []) =
      some ({ status := 2, message := [104, 105], data := [] }, []) ∧
    tryExtractFrame (encodeResponse 3 [] [42]) =
      some ({ status := 3, message := [], data := [42] }, []) ∧
    tryExtractFrame (encodeResponse 1 [79, 75] (List.replicate 65536 7)) =
      some ({ status := 1, message := [79, 75],
              data := List.replicate 65536 7 }, []) := by
  refine ⟨?_, ?_, ?_⟩
  · exact encode_decode_roundtrip 2 [104, 105] [] (by decide) (by decide)
      (by decide)
  · exact encode_decode_roundtrip 3 [] [42] (by decide) (by decide) (by decide)
  · exact encode_decode_roundtrip 1 [79, 75] (List.replicate 65536 7)
      (by decide) (by decide)
      (by rw [List.length_replicate]; decide)

/-- C3: for a valid encoded frame split into consecutive chunks in any way,
feeding the chunks one at a time to the incremental decoder yields exactly
one decoded frame identical to the one-shot decode, with the buffer empty
afterwards; and after any proper prefix of the bytes, nothing has been
delivered, the waiter is still pending and the buffer holds exactly the
bytes received so far. -/
theorem chunk_boundary_invariance (status : Nat) (message data : List Nat)
    (chunks : List (List Nat)) (w : Nat)
    (hs : status < 256) (hm : message.length < 4294967296)
    (hd : data.length < 4294967296)
    (hj : chunks.flatten = encodeResponse status message data) :
    feedChunks (listeningState w) chunks =
      { listeningState w with
          responseWaiter := none,
          delivered := [(w, { status := status, message := message,
                              data := data })] } ∧
    ∀ k : Nat,
      ((chunks.take k).flatten).length <
          (encodeResponse status message data).length →
      feedChunks (listeningState w) (chunks.take k) =
        { listeningState w with responseBuffer := (chunks.take k).flatten } := by
  constructor
  · have hbase : ({ listeningState w with responseBuffer := [] } : ConnState) =
        listeningState w := rfl
    have h := feedChunks_completes status message data w hm hd chunks []
      (by simp [encodeResponse_length]) (by simpa using hj)
    rw [hbase, Nat.mod_eq_of_lt hs] at h
    exact h
  · intro k hk
    have hsplit : (chunks.take k).flatten ++ (chunks.drop k).flatten =
        encodeResponse status message data := by
      rw [← List.flatten_append, List.take_append_drop, hj]
    have hqne : (chunks.drop k).flatten ≠ [] := by
      intro hq0
      rw [hq0, List.append_nil] at hsplit
      rw [hsplit] at hk
      omega
    have h := feedChunks_prefix_incomplete status message data w hm hd
      (chunks.take k) [] ((chunks.drop k).flatten) (by simpa using hsplit) hqne
    simpa using h

/-- Witness for C3: an 11-byte frame delivered one byte at a time produces
exactly one frame with an empty buffer, and after 5 of the 11 bytes nothing
has been delivered and the buffer holds those 5 bytes. -/
theorem chunk_boundary_invariance_witness :
    feedChunks (listeningState 0)
        [[1], [1], [0], [0], [0], [65], [1], [0], [0], [0], [66]] =
      { listeningState 0 with
          responseWaiter := none,
          delivered := [(0, { status := 1, message := [65], data := [66] })] } ∧
    feedChunks (listeningState 0)
        ([[1], [1], [0], [0], [0], [65], [1], [0], [0], [0], [66]].take 5) =
      { listeningState 0 with responseBuffer := [1, 1, 0, 0, 0] } := by
  constructor
  · exact (chunk_boundary_invariance 1 [65] [66]
      [[1], [1], [0], [0], [0], [65], [1], [0], [0], [0], [66]] 0
      (by decide) (by decide) (by decide) (by decide)).1
  · have h := (chunk_boundary_invariance 1 [65] [66]
      [[1], [1], [0], [0], [0], [65], [1], [0], [0], [0], [66]] 0
      (by decide) (by decide) (by decide) (by decide)).2 5 (by decide)
    rw [h]
    decide

/-- C4: two valid encoded frames concatenated and delivered as a single
chunk, with two requests awaiting them in sequence, yield the two decoded
frames in order with nothing left in the buffer; the second frame is
extracted when the second waiter registers (waitForResponse re-running the
decoder), with no further network read. -/
theorem two_frames_single_chunk (s1 : Nat) (m1 d1 : List Nat) (s2 : Nat)
    (m2 d2 : List Nat) (w1 w2 : Nat)
    (hs1 : s1 < 256) (hm1 : m1.length < 4294967296)
    (hd1 : d1.length < 4294967296)
    (hs2 : s2 < 256) (hm2 : m2.length < 4294967296)
    (hd2 : d2.length < 4294967296) :
    onData (listeningState w1)
        (encodeResponse s1 m1 d1 ++ encodeResponse s2 m2 d2) =
      { listeningState w1 with
          responseBuffer := encodeResponse s2 m2 d2,
          responseWaiter := none,
          delivered := [(w1, { status := s1, message := m1, data := d1 })] } ∧
    waitForResponse
        (onData (listeningState w1)
          (encodeResponse s1 m1 d1 ++ encodeResponse s2 m2 d2)) w2 =
      { listeningState w1 with
          responseBuffer := [],
          responseWaiter := none,
          delivered := [(w1, { status := s1, message := m1, data := d1 }),
                        (w2, { status := s2, message := m2, data := d2 })] } := by
  have hext1 : tryExtractFrame
      (encodeResponse s1 m1 d1 ++ encodeResponse s2 m2 d2) =
      some ({ status := s1, message := m1, data := d1 },
            encodeResponse s2 m2 d2) := by
    rw [tryExtractFrame_encode_append s1 m1 d1 _ hm1 hd1, Nat.mod_eq_of_lt hs1]
  have h1 : onData (listeningState w1)
      (encodeResponse s1 m1 d1 ++ encodeResponse s2 m2 d2) =
      { listeningState w1 with
          responseBuffer := encodeResponse s2 m2 d2,
          responseWaiter := none,
          delivered := [(w1, { status := s1, message := m1, data := d1 })] } :=
    tryProcessResponse_complete _ w1 _ _ rfl hext1
  refine ⟨h1, ?_⟩
  rw [h1]
  have hext2 : tryExtractFrame (encodeResponse s2 m2 d2) =
      some ({ status := s2, message := m2, data := d2 }, []) := by
    rw [tryExtractFrame_encode s2 m2 d2 hm2 hd2, Nat.mod_eq_of_lt hs2]
  exact tryProcessResponse_complete _ w2 _ _ rfl hext2

/-- Witness for C4 at two concrete frames delivered in one chunk to two
sequential waiters. -/
theorem two_frames_single_chunk_witness :
    onData (listeningState 1) (encodeResponse 1 [79] [65] ++
        encodeResponse 2 [78] []) =
      { listeningState 1 with
          responseBuffer := encodeResponse 2 [78] [],
          responseWaiter := none,
          delivered := [(1, { status := 1, message := [79], data := [65] })] } ∧
    waitForResponse (onData (listeningState 1)
        (encodeResponse 1 [79] [65] ++ encodeResponse 2 [78] [])) 2 =
      { listeningState 1 with
          responseBuffer := [],
          responseWaiter := none,
          delivered := [(1, { status := 1, message := [79], data := [65] }),
                        (2, { status := 2, message := [78], data := [] })] } :=
  two_frames_single_chunk 1 [79] [65] 2 [78] [] 1 2 (by decide) (by decide)
    (by decide) (by decide) (by decide) (by decide)

/-- C5 evidence (code bug): when a socket error or close event triggers
`cleanup` while a response waiter is registered, all session fields are
reset (socket dropped, connect promise cleared, authentication flags
cleared, receive buffer cleared) but the registered waiter continuation is
neither invoked nor rejected: it survives the reset unresolved, so the
suspended caller hangs instead of receiving a connection-reset error. -/
theorem cleanup_leaves_waiter_dangling :
    (cleanup { socket := some { destroyed := false },
               connectingPromise := false,
               isAuthenticatedSession := true,
               authenticatedUser := some [97],
               responseBuffer := [1, 2, 3],
               responseWaiter := some 7,
               delivered := [],
               written := [] } true (some "ECONNRESET")).1 =
      { socket := none,
        connectingPromise := false,
        isAuthenticatedSession := false,
        authenticatedUser := none,
        responseBuffer := [],
        responseWaiter := some 7,
        delivered := [],
        written := [] } ∧
    (cleanup { socket := some { destroyed := false },
               connectingPromise := false,
               isAuthenticatedSession := true,
               authenticatedUser := some [97],
               responseBuffer := [1, 2, 3],
               responseWaiter := some 7,
               delivered := [],
               written := [] } true (some "ECONNRESET")).2 = none :=
  ⟨rfl, rfl⟩

/-- C6: for any opcode other than the authentication opcode, calling
sendCommand on a connected but unauthenticated session fails with the
not-authenticated error, leaves the state unchanged, and in particular
performs no socket write. -/
theorem sendCommand_auth_gate (st : ConnState) (cmd : Nat)
    (payload : List Nat) (w : Nat) (s : TLSSocket)
    (hsock : st.socket = some s) (hcmd : cmd ≠ CMD_AUTHENTICATE)
    (hauth : st.isAuthenticatedSession = false) :
    sendCommand st cmd payload w = (SendOutcome.errNotAuthenticated, st) ∧
    (sendCommand st cmd payload w).2.written = st.written := by
  have h : sendCommand st cmd payload w =
      (SendOutcome.errNotAuthenticated, st) := by
    unfold sendCommand
    rw [hsock]
    rw [if_pos ⟨hcmd, by rw [hauth]; exact Bool.false_ne_true⟩]
  exact ⟨h, by rw [h]⟩

/-- Witness for C6: a query opcode issued on a connected, unauthenticated
session is rejected with no write recorded. -/
theorem sendCommand_auth_gate_witness :
    sendCommand { listeningState 0 with isAuthenticatedSession := false }
        14 [3] 0 =
      (SendOutcome.errNotAuthenticated,
        { listeningState 0 with isAuthenticatedSession := false }) ∧
    (sendCommand { listeningState 0 with isAuthenticatedSession := false }
        14 [3] 0).2.written = [] :=
  sendCommand_auth_gate { listeningState 0 with isAuthenticatedSession := false }
    14 [3] 0 { destroyed := false } rfl (by decide) rfl

/-- C7: a connect() call while a connection attempt is in flight does not
start a second handshake and does not change the state; a connect() call
with an open, non-destroyed socket returns that socket immediately; and
after a connect() call that does start a handshake, a second connect()
call never starts another one. -/
theorem connect_single_flight (st : ConnState) :
    (st.connectingPromise = true →
      (connect st).1 ≠ ConnectOutcome.startedHandshake ∧ (connect st).2 = st) ∧
    (∀ s : TLSSocket, st.socket = some s → s.destroyed = false →
      connect st = (ConnectOutcome.reusedSocket, st)) ∧
    (∀ st1 : ConnState, connect st = (ConnectOutcome.startedHandshake, st1) →
      (connect st1).1 ≠ ConnectOutcome.startedHandshake) := by
  obtain ⟨sock, cp, auth, user, buf, wtr, del, wr⟩ := st
  refine ⟨?_, ?_, ?_⟩
  · intro hcp
    replace hcp : cp = true := hcp
    subst hcp
    rcases sock with _ | s
    · simp [connect]
    · obtain ⟨ds⟩ := s
      rcases ds <;> simp [connect]
  · intro s hs hdes
    replace hs : sock = some s := hs
    subst hs
    obtain ⟨ds⟩ := s
    replace hdes : ds = false := hdes
    subst hdes
    simp [connect]
  · intro st1 h
    rcases sock with _ | s
    · rcases cp
      · simp only [connect] at h
        rw [if_neg (by decide)] at h
        injection h with h1 h2
        subst h2
        simp [connect]
      · simp [connect] at h
    · obtain ⟨ds⟩ := s
      rcases ds
      · simp [connect] at h
      · rcases cp
        · simp only [connect] at h
          rw [if_neg (by decide), if_neg (by decide)] at h
          injection h with h1 h2
          subst h2
          simp [connect]
        · simp [connect] at h

/-- Witness for C7: with a connect in flight, a second connect joins it;
with an open socket, connect reuses it; starting a handshake from a fresh
client then calling connect again does not start a second handshake. -/
theorem connect_single_flight_witness :
    (connect { listeningState 0 with
        socket := none,
        connectingPromise := true }).1 ≠ ConnectOutcome.startedHandshake ∧
    connect (listeningState 0) = (ConnectOutcome.reusedSocket,
      listeningState 0) ∧
    (connect (connect { listeningState 0 with socket := none }).2).1 ≠
      ConnectOutcome.startedHandshake := by
  refine ⟨?_, ?_, ?_⟩
  · exact ((connect_single_flight _).1 rfl).1
  · exact (connect_single_flight _).2.1 { destroyed := false } rfl rfl
  · exact (connect_single_flight { listeningState 0 with socket := none }).2.2
      ((connect { listeningState 0 with socket := none }).2) rfl

/-- C8: the authentication handshake writes the authentication opcode
followed by the two length-prefixed credential strings; a status-OK reply
marks the session authenticated and records the username; any other reply
status produces an error carrying the status string and the server
message, and leaves the client disconnected: the socket destroyed and
dropped, the authentication flags cleared, the connect promise cleared. -/
theorem performAuthentication_handshake (st : ConnState)
    (u p : List Nat) (resp : CommandResponse) :
    (performAuthentication st u p resp).2.written =
      st.written ++ [CMD_AUTHENTICATE :: (writeString u ++ writeString p)] ∧
    (resp.status = STATUS_OK →
      (performAuthentication st u p resp).1 = Except.ok resp.message ∧
      (performAuthentication st u p resp).2.isAuthenticatedSession = true ∧
      (performAuthentication st u p resp).2.authenticatedUser = some u) ∧
    (resp.status ≠ STATUS_OK →
      (performAuthentication st u p resp).1 =
        Except.error (getStatusString resp.status, resp.message) ∧
      (performAuthentication st u p resp).2.socket = none ∧
      (performAuthentication st u p resp).2.isAuthenticatedSession = false ∧
      (performAuthentication st u p resp).2.authenticatedUser = none ∧
      (performAuthentication st u p resp).2.connectingPromise = false) := by
  refine ⟨?_, ?_, ?_⟩
  · by_cases h : resp.status = STATUS_OK <;>
      simp [performAuthentication, cleanup, h]
  · intro h
    simp [performAuthentication, h]
  · intro h
    simp [performAuthentication, cleanup, h]

/-- Witness for C8, the auth-failure scenario: reply status 5 with message
bytes for bad credentials; the call errors with the UNAUTHORIZED status
string and the server message, and the client ends up disconnected and
unauthenticated. -/
theorem performAuthentication_handshake_witness :
    (performAuthentication (listeningState 0) [117] [112]
        { status := 5, message := [98, 97, 100], data := [] }).1 =
      Except.error ("UNAUTHORIZED", [98, 97, 100]) ∧
    (performAuthentication (listeningState 0) [117] [112]
        { status := 5, message := [98, 97, 100], data := [] }).2.socket =
      none ∧
    (performAuthentication (listeningState 0) [117] [112]
        { status := 5, message := [98, 97, 100],
          data := [] }).2.isAuthenticatedSession = false := by
  have h := (performAuthentication_handshake (listeningState 0) [117] [112]
    { status := 5, message := [98, 97, 100], data := [] }).2.2 (by decide)
  refine ⟨?_, h.2.1, h.2.2.1⟩
  rw [h.1]
  rfl

/-- C9: for the read-style collectionItemGet, a NOT_FOUND response is a
successful absent result (found false, server message kept, null value,
no error raised); any other non-OK status raises an error carrying the
status string and the server message; an OK status returns the value as
found. -/
theorem collectionItemGet_status_handling (resp : CommandResponse) :
    (resp.status = STATUS_NOT_FOUND →
      collectionItemGetResult resp =
        Except.ok { found := false, message := resp.message, value := none }) ∧
    (resp.status ≠ STATUS_OK → resp.status ≠ STATUS_NOT_FOUND →
      collectionItemGetResult resp =
        Except.error (getStatusString resp.status, resp.message)) ∧
    (resp.status = STATUS_OK →
      collectionItemGetResult resp =
        Except.ok { found := true, message := resp.message,
                    value := some resp.data }) := by
  refine ⟨?_, ?_, ?_⟩
  · intro h
    unfold collectionItemGetResult
    rw [if_pos h]
  · intro hok hnf
    unfold collectionItemGetResult
    rw [if_neg hnf, if_pos hok]
  · intro h
    unfold collectionItemGetResult
    rw [if_neg (by rw [h]; decide), if_neg (by simp [h])]

/-- Witness for C9 at the three concrete statuses 2 (NOT_FOUND),
5 (UNAUTHORIZED) and 1 (OK). -/
theorem collectionItemGet_status_handling_witness :
    collectionItemGetResult { status := 2, message := [110], data := [] } =
      Except.ok { found := false, message := [110], value := none } ∧
    collectionItemGetResult { status := 5, message := [101], data := [] } =
      Except.error ("UNAUTHORIZED", [101]) ∧
    collectionItemGetResult { status := 1, message := [111], data := [7] } =
      Except.ok { found := true, message := [111], value := some [7] } := by
  refine ⟨?_, ?_, ?_⟩
  · exact (collectionItemGet_status_handling
      { status := 2, message := [110], data := [] }).1 rfl
  · have h := (collectionItemGet_status_handling
      { status := 5, message := [101], data := [] }).2.1 (by decide) (by decide)
    rw [h]
    rfl
  · exact (collectionItemGet_status_handling
      { status := 1, message := [111], data := [7] }).2.2 rfl

/-- C10: with no registered waiter the decoder consumes nothing, leaving
the whole state (in particular a buffer full of complete frames)
untouched; and with a registered waiter one run of the loop either
delivers nothing (slot intact) or delivers exactly one frame to that
waiter with the slot cleared: a waiter is resolved at most once. -/
theorem no_waiter_no_consumption (st : ConnState) (buf : List Nat) (w : Nat)
    (d : List (Nat × CommandResponse)) :
    (st.responseWaiter = none → tryProcessResponse st = st) ∧
    (processLoop buf (some w) d = (buf, some w, d) ∨
      ∃ r : CommandResponse, ∃ rest : List Nat,
        tryExtractFrame buf = some (r, rest) ∧
        processLoop buf (some w) d = (rest, none, d ++ [(w, r)])) := by
  refine ⟨tryProcessResponse_no_waiter st, ?_⟩
  match h : tryExtractFrame buf with
  | none => exact Or.inl (processLoop_extract_none buf w d h)
  | some (r, rest) =>
    exact Or.inr ⟨r, rest, rfl, processLoop_extract_some buf w d r rest h⟩

/-- Witness for C10: a buffer holding a complete frame stays byte-for-byte
intact when no waiter is registered. -/
theorem no_waiter_no_consumption_witness :
    tryProcessResponse { listeningState 0 with
        responseBuffer := encodeResponse 1 [79] [1, 2],
        responseWaiter := none } =
      { listeningState 0 with
          responseBuffer := encodeResponse 1 [79] [1, 2],
          responseWaiter := none } :=
  (no_waiter_no_consumption { listeningState 0 with
      responseBuffer := encodeResponse 1 [79] [1, 2],
      responseWaiter := none } [] 0 []).1 rfl

end MemoryToolsClient
